import Mathlib

/-!
Verification of the offline-first sync engine of ChatterFix CMMS.

Shallow embedding of `src/api/sync_endpoints.py` (class `SyncManager`, the
`/api/sync/batch` endpoint) and of the repository methods it dispatches to in
`src/database/repositories.py` (`WorkOrderRepository`, `CostEntryRepository`,
`PMTaskRepository`, `PMScheduleRepository`, `AssetRepository`).

Modelling conventions:
- timestamps are `Nat` (the engine only compares them with `>`); a server clock
  `now` lives in the store and is bumped on every write, matching the monotone
  `CURRENT_TIMESTAMP` the database stamps into `updated_at`;
- `uuid.uuid4()` calls are modelled by a fresh-name supply `nextId` in the
  store; the point that matters is that the generated id is distinct from every
  client-supplied id, which the `"uuid-"` prefix guarantees;
- a database row is `Rec`: its `id` column is the `rid` field, the remaining
  columns an association list `fields` (column defaults other than
  `updated_at DEFAULT CURRENT_TIMESTAMP` are elided: no claim inspects them);
- Python exceptions (`KeyError`, `AttributeError` from a missing repository
  method under `hasattr` dispatch, `ValueError` for an unknown table) are the
  `Except.error` channel; the error strings keep the exception class name;
- each repository class exposes exactly the methods the Python class defines;
  the `hasattr` checks in the sync manager are the `has...` capability flags
  below, read off from `repositories.py`.
-/

namespace ChatterFix

/-- Values of `SyncOperation.operation` (a `Literal` in the Python model). -/
inductive OpKind where
  | CREATE
  | UPDATE
  | DELETE
deriving DecidableEq, Repr

/-- Embedding of `SyncOperation` (sync_endpoints.py lines 37-45): one client
mutation. -/
structure SyncOperation where
  id : String
  operation : OpKind
  table_name : String
  record_id : String
  data : Option (List (String × String))
  client_timestamp : Nat
  retry_count : Nat := 0
deriving DecidableEq, Repr

/-- A database row: `rid` is the `id` column, `updated_at` the nullable
timestamp column, `fields` the remaining columns. -/
structure Rec where
  rid : String
  updated_at : Option Nat
  fields : List (String × String)
deriving DecidableEq, Repr

/-- A row of the `sync_status` ledger table. -/
structure LedgerRow where
  lid : String
  table_name : String
  record_id : String
  operation : String
  client_id : String
  synced : Bool
  synced_at : Option Nat
deriving DecidableEq, Repr

/-- The server state: one list of rows per entity table registered in
`SyncManager.repositories`, the `sync_status` ledger, the uuid supply and the
server clock. -/
structure Store where
  work_orders : List Rec
  pm_tasks : List Rec
  pm_schedule : List Rec
  cost_entries : List Rec
  assets : List Rec
  sync_status : List LedgerRow
  nextId : Nat
  now : Nat
deriving DecidableEq, Repr

/-- Rows of the entity table named `t` (the five keys of
`SyncManager.repositories`; anything else is absent from the dict). -/
def Store.table (s : Store) (t : String) : List Rec :=
  if t = "work_orders" then s.work_orders
  else if t = "pm_tasks" then s.pm_tasks
  else if t = "pm_schedule" then s.pm_schedule
  else if t = "cost_entries" then s.cost_entries
  else if t = "assets" then s.assets
  else []

/-- Replace the rows of entity table `t`. -/
def Store.setTable (s : Store) (t : String) (l : List Rec) : Store :=
  if t = "work_orders" then { s with work_orders := l }
  else if t = "pm_tasks" then { s with pm_tasks := l }
  else if t = "pm_schedule" then { s with pm_schedule := l }
  else if t = "cost_entries" then { s with cost_entries := l }
  else if t = "assets" then { s with assets := l }
  else s

/-- Model of `table_name in SyncManager.repositories` (sync_endpoints.py lines
74-80). -/
def knownTable (t : String) : Bool :=
  t == "work_orders" || t == "pm_tasks" || t == "pm_schedule" ||
    t == "cost_entries" || t == "assets"

/-- Model of the check `hasattr(repo, "get_by_id")`: true exactly for `WorkOrderRepository`,
`PMTaskRepository` and `AssetRepository` (repositories.py). -/
def hasGetById (t : String) : Bool :=
  t == "work_orders" || t == "pm_tasks" || t == "assets"

/-- Model of the check `hasattr(repo, "create")`: true exactly for `WorkOrderRepository`,
`PMTaskRepository` and `CostEntryRepository`. -/
def hasCreate (t : String) : Bool :=
  t == "work_orders" || t == "pm_tasks" || t == "cost_entries"

/-- Model of the check `hasattr(repo, "update")`: only `WorkOrderRepository` defines `update`. -/
def hasUpdate (t : String) : Bool := t == "work_orders"

/-- Model of the check `hasattr(repo, "delete")`: only `WorkOrderRepository` defines `delete`. -/
def hasDelete (t : String) : Bool := t == "work_orders"

/-- Reading `d[k]` on an association-list payload, `none` when the key is
absent. -/
def lookupField (d : List (String × String)) (k : String) : Option String :=
  (d.find? (fun kv => kv.1 == k)).map Prod.snd

/-- Assignment `d[k] = v`: overwrite the key when present, append it otherwise. -/
def setField (d : List (String × String)) (k v : String) : List (String × String) :=
  if d.any (fun kv => kv.1 == k) then
    d.map (fun kv => if kv.1 == k then (k, v) else kv)
  else d ++ [(k, v)]

/-- Apply every pair of `upd` to `base` in order, as successive `d[k] = v`. -/
def applyFields (base upd : List (String × String)) : List (String × String) :=
  upd.foldl (fun acc kv => setField acc kv.1 kv.2) base

/-- The non-immutable part of a payload: the `SET` clauses
`WorkOrderRepository.update` builds, with `id` and `created_at` skipped. -/
def mutableClauses (d : List (String × String)) : List (String × String) :=
  d.filter (fun kv => ¬ (kv.1 == "id" || kv.1 == "created_at"))

/-- The payload keys each repository `create` reads with mandatory `data[k]`
indexing, whose absence raises `KeyError` (repositories.py lines 57, 147-149,
208-212). Tables without a `create` method have no entry. -/
def createRequired (t : String) : List String :=
  if t = "work_orders" then ["title"]
  else if t = "cost_entries" then ["work_order_id", "type", "amount"]
  else if t = "pm_tasks" then ["name", "asset_id", "trigger_type", "frequency"]
  else []

/-- The value of `str(uuid.uuid4())` for supply position `n`; distinct from
every client-chosen id by its reserved prefix. -/
def freshId (n : Nat) : String := "uuid-" ++ toString n

namespace WorkOrderRepository

/-- Embedding of `get_by_id` (repositories.py lines 72-83) generalised over the
table: a
single-row `SELECT ... WHERE id = $1`. `PMTaskRepository.get_by_id` and
`AssetRepository.get_by_id` have the same observable behaviour, so the sync
manager proofs use this one function with the table name as argument. -/
def get_by_id (s : Store) (t : String) (rid : String) : Option Rec :=
  (s.table t).find? (fun r => r.rid == rid)

/-- Embedding of `create` (repositories.py lines 40-70), shared shape of all
three `create`
methods: a `KeyError` when a mandatorily-indexed payload key is missing,
otherwise an `INSERT` whose `id` column is a fresh `str(uuid.uuid4())` — the
`id` key of the payload dict is never read — returning the new row. The
database stamps `updated_at` with the current time via its column default. -/
def create (s : Store) (t : String) (d : List (String × String)) :
    Except String (Rec × Store) :=
  match (createRequired t).find? (fun k => (lookupField d k).isNone) with
  | some k => .error ("KeyError: " ++ k)
  | none =>
    let r : Rec := { rid := freshId s.nextId, updated_at := some s.now,
                     fields := d.filter (fun kv => ¬ (kv.1 == "id")) }
    .ok (r, { (s.setTable t ((s.table t) ++ [r])) with
              nextId := s.nextId + 1, now := s.now + 1 })

/-- Embedding of `update` (repositories.py lines 99-124): builds `SET` clauses
from every
payload key except the immutable `id` and `created_at`; returns `None` when no
clause remains or when no row has the id; otherwise writes the clauses plus
`updated_at = CURRENT_TIMESTAMP` to every row with the id and returns the row. -/
def update (s : Store) (rid : String) (d : List (String × String)) :
    Option (Rec × Store) :=
  let clauses := d.filter (fun kv => ¬ (kv.1 == "id" || kv.1 == "created_at"))
  if clauses.isEmpty then none
  else
    match s.work_orders.find? (fun r => r.rid == rid) with
    | none => none
    | some old =>
      let newRec : Rec := { old with
        fields := applyFields old.fields clauses
        updated_at := some s.now }
      some (newRec,
        { s with
          work_orders :=
            s.work_orders.map (fun r => if r.rid == rid then newRec else r)
          now := s.now + 1 })

/-- Embedding of `delete` (repositories.py lines 126-130): a
`DELETE ... WHERE id = $1`,
reporting `True` exactly when the status line is `DELETE 1`, i.e. when a row
with the id existed. -/
def delete (s : Store) (rid : String) : Bool × Store :=
  (s.work_orders.any (fun r => r.rid == rid),
   { s with work_orders := s.work_orders.filter (fun r => ¬ (r.rid == rid)) })

end WorkOrderRepository

namespace SyncManager

/-- Embedding of `_detect_conflicts` (sync_endpoints.py lines 170-180): a
conflict exists
when both timestamps are set — `client_timestamp` is a mandatory `datetime`,
hence always truthy — and the server `updated_at` is strictly later. -/
def detect_conflicts (server_record : Rec) (op : SyncOperation) : Bool :=
  match server_record.updated_at with
  | some server_updated => decide (op.client_timestamp < server_updated)
  | none => false

/-- The tail of `_handle_update` after conflict handling (sync_endpoints.py
lines 157-162): call `repo.update` when the repository has one — only
`WorkOrderRepository` does — reporting success when it returned a row; with no
`update` method the handler returns `False`. `operation.data = None` makes the
`update_data.items()` iteration raise. -/
def applyUpdate (s : Store) (op : SyncOperation) : Except String (Bool × Store) :=
  if hasUpdate op.table_name then
    match op.data with
    | none => .error "AttributeError: NoneType object has no attribute items"
    | some d =>
      match WorkOrderRepository.update s op.record_id d with
      | none => .ok (false, s)
      | some (_, s1) => .ok (true, s1)
  else .ok (false, s)

mutual

/-- Embedding of `_handle_create` (sync_endpoints.py lines 121-138): look the
record up when
the repository can; an existing record turns the CREATE into an UPDATE;
otherwise copy the payload — `None.copy()` raises — set its `id` key to the
client `record_id`, and call `repo.create` (raising `AttributeError` for the
repositories without one). The fuel argument bounds the CREATE/UPDATE mutual
recursion, which the Python code performs at depth at most one. -/
def handle_create : Nat → Store → SyncOperation → Except String (Bool × Store)
  | 0, _, _ => .error "RecursionError"
  | Nat.succ fuel, s, op =>
    let existing :=
      if hasGetById op.table_name then
        WorkOrderRepository.get_by_id s op.table_name op.record_id
      else none
    match existing with
    | some _ => handle_update fuel s op
    | none =>
      match op.data with
      | none => .error "AttributeError: NoneType object has no attribute copy"
      | some d =>
        if hasCreate op.table_name then
          match WorkOrderRepository.create s op.table_name
              (setField d "id" op.record_id) with
          | .error e => .error e
          | .ok (_, s1) => .ok (true, s1)
        else .error "AttributeError: object has no attribute create"

/-- Embedding of `_handle_update` (sync_endpoints.py lines 140-162): when the
repository has
`get_by_id`, a missing record turns the UPDATE into a CREATE, and on a found
record a detected conflict makes the server win — the handler returns `False`
without touching the store; otherwise (and for repositories without
`get_by_id`) fall through to the `repo.update` dispatch. -/
def handle_update : Nat → Store → SyncOperation → Except String (Bool × Store)
  | 0, _, _ => .error "RecursionError"
  | Nat.succ fuel, s, op =>
    if hasGetById op.table_name then
      match WorkOrderRepository.get_by_id s op.table_name op.record_id with
      | none => handle_create fuel s op
      | some current =>
        if detect_conflicts current op then .ok (false, s)
        else applyUpdate s op
    else applyUpdate s op

end

/-- Embedding of `_handle_delete` (sync_endpoints.py lines 164-168): dispatch
to
`repo.delete` when the repository has one, else return `False`. -/
def handle_delete (s : Store) (op : SyncOperation) : Except String (Bool × Store) :=
  if hasDelete op.table_name then
    let res := WorkOrderRepository.delete s op.record_id
    .ok (res.1, res.2)
  else .ok (false, s)

/-- Embedding of `_process_single_operation` (sync_endpoints.py lines 106-119):
an
unregistered table raises `ValueError`, otherwise dispatch on the operation
kind. The Python CREATE and UPDATE handlers call each other at depth at most
one, so fuel 2 realises them exactly. -/
def process_single_operation (s : Store) (op : SyncOperation) :
    Except String (Bool × Store) :=
  if knownTable op.table_name then
    match op.operation with
    | .CREATE => handle_create 2 s op
    | .UPDATE => handle_update 2 s op
    | .DELETE => handle_delete s op
  else .error ("ValueError: Unknown table: " ++ op.table_name)

/-- The generic message `process_client_operations` records when a handler
returns a falsy result (sync_endpoints.py line 95). -/
def noResultMsg : String := "Operation failed - no result returned"

/-- The outcome of `process_client_operations`: ids of applied operations,
(id, error) pairs of failed ones, both in submission order, and the store. -/
structure BatchResult where
  processed : List String
  failed : List (String × String)
  store : Store
deriving DecidableEq, Repr

/-- Embedding of `process_client_operations` (sync_endpoints.py lines 82-104):
fold over the
batch in submission order; a truthy handler result appends the operation id to
`processed`, a falsy one appends the generic failure entry, and a raised
exception — whose paths in the handlers never mutate the store before raising —
is caught and appended as a failure with its message. -/
def process_client_operations (s : Store) : List SyncOperation → BatchResult
  | [] => ⟨[], [], s⟩
  | op :: rest =>
    match process_single_operation s op with
    | .ok (true, s1) =>
      let r := process_client_operations s1 rest
      ⟨op.id :: r.processed, r.failed, r.store⟩
    | .ok (false, s1) =>
      let r := process_client_operations s1 rest
      ⟨r.processed, (op.id, noResultMsg) :: r.failed, r.store⟩
    | .error e =>
      let r := process_client_operations s rest
      ⟨r.processed, (op.id, e) :: r.failed, r.store⟩

/-- The sort key of `ORDER BY updated_at DESC`; rows reaching the sort always
have `updated_at` set, since the `WHERE updated_at > $1` filter drops nulls. -/
def updatedKey (r : Rec) : Nat := r.updated_at.getD 0

/-- Newest-first order on rows. -/
def recGE (a b : Rec) : Prop := updatedKey b ≤ updatedKey a

instance : DecidableRel recGE := fun a b => Nat.decLe (updatedKey b) (updatedKey a)

instance : IsTotal Rec recGE :=
  ⟨fun a b => (Nat.le_total (updatedKey b) (updatedKey a)).elim Or.inl Or.inr⟩

instance : IsTrans Rec recGE :=
  ⟨fun _ _ _ hab hbc => Nat.le_trans hbc hab⟩

/-- Predicate `updated_at > $1` on a nullable column: null never qualifies. -/
def updatedAfter (t : Nat) (r : Rec) : Bool :=
  match r.updated_at with
  | some u => decide (t < u)
  | none => false

/-- One of the three `SELECT ... WHERE updated_at > $1 ORDER BY updated_at DESC
LIMIT cap` queries of `get_server_changes`, tagged with its table name. -/
def changesFor (tname : String) (recs : List Rec) (t : Nat) (cap : Nat) :
    List (String × Rec) :=
  (((recs.filter (updatedAfter t)).insertionSort recGE).take cap).map
    (fun r => (tname, r))

/-- Model of `datetime.now().replace(hour=0, minute=0, second=0,
microsecond=0)`:
truncation of the clock to the start of the current day. -/
def startOfDay (n : Nat) : Nat := n - n % 86400

/-- Embedding of `get_server_changes` (sync_endpoints.py lines 182-236): a null
watermark
defaults to the start of the current day; then the three queries — work orders
capped at 100, PM tasks at 50, PM schedule at 100 — are concatenated. No other
table is queried. -/
def get_server_changes (s : Store) (last_sync : Option Nat) : List (String × Rec) :=
  let t := match last_sync with
    | some u => u
    | none => startOfDay s.now
  changesFor "work_orders" s.work_orders t 100 ++
    changesFor "pm_tasks" s.pm_tasks t 50 ++
    changesFor "pm_schedule" s.pm_schedule t 100

end SyncManager

/-- Model of `INSERT ... ON CONFLICT (id) DO UPDATE SET synced = true, synced_at =
CURRENT_TIMESTAMP` on the `sync_status` table: append when the id is new,
otherwise overwrite only the two conflict-clause columns. -/
def ledgerUpsert (rows : List LedgerRow) (row : LedgerRow) : List LedgerRow :=
  if rows.any (fun r => r.lid == row.lid) then
    rows.map (fun r =>
      if r.lid == row.lid then
        { r with synced := true, synced_at := row.synced_at }
      else r)
  else rows ++ [row]

/-- The ledger loop of `sync_batch_operations` (sync_endpoints.py lines
260-269): one `sync_status` upsert per *processed* operation id, keyed by a
fresh `str(uuid.uuid4())` — not the operation id — with the literal values
`table_name` and `record_id` both set to the literal string batch and
`operation` to SYNC. -/
def recordSyncStatus (s : Store) (client_id : String) (opIds : List String) : Store :=
  opIds.foldl
    (fun st _ =>
      { st with
        sync_status := ledgerUpsert st.sync_status
          ⟨freshId st.nextId, "batch", "batch", "SYNC", client_id, true,
            some st.now⟩
        nextId := st.nextId + 1 })
    s

/-- Embedding of `SyncResponse` (sync_endpoints.py lines 53-59) together with
the final
server state, as built by `sync_batch_operations`. -/
structure SyncResponse where
  success : Bool
  processed_operations : List String
  failed_operations : List (String × String)
  server_changes : List (String × Rec)
  store : Store
deriving DecidableEq, Repr

/-- Embedding of `sync_batch_operations` (sync_endpoints.py lines 245-277):
process the
batch, compute the server delta since the client watermark, write the ledger
rows for the processed ids, and assemble the response; `success` holds exactly
when nothing failed. -/
def sync_batch_operations (s : Store) (client_id : String)
    (ops : List SyncOperation) (last_sync : Option Nat) : SyncResponse :=
  let results := SyncManager.process_client_operations s ops
  let changes := SyncManager.get_server_changes results.store last_sync
  let s1 := recordSyncStatus results.store client_id results.processed
  ⟨results.failed.isEmpty, results.processed, results.failed, changes, s1⟩

/-! ### Concrete scenarios

The scenario of spec section 8 and its variants, used by the closed theorems
and the witnesses below. -/

/-- A server with no rows, uuid supply at 0, clock at 1000. -/
def emptyStore : Store := ⟨[], [], [], [], [], [], 0, 1000⟩

/-- The spec-section-8 scenario operation: CREATE of work order `wo-1`. -/
def opCreateWo1 : SyncOperation :=
  ⟨"op1", OpKind.CREATE, "work_orders", "wo-1", some [("title", "Fix pump")], 0, 0⟩

/-- First submission of the `op1` batch. -/
def c1FirstRun : SyncResponse :=
  sync_batch_operations emptyStore "client-1" [opCreateWo1] none

/-- Identical resubmission of the `op1` batch against the resulting state. -/
def c1SecondRun : SyncResponse :=
  sync_batch_operations c1FirstRun.store "client-1" [opCreateWo1] none

/-- A CREATE whose payload lacks the mandatory `title` key: the repository
raises `KeyError`, the model of a `ValidationError`. -/
def opCreateNoTitle : SyncOperation :=
  ⟨"op2", OpKind.CREATE, "work_orders", "wo-2", some [("foo", "x")], 0, 0⟩

/-- A further well-formed CREATE, submitted after the failing one. -/
def opCreateWo5 : SyncOperation :=
  ⟨"op5", OpKind.CREATE, "work_orders", "wo-5", some [("title", "Grease line")], 0, 0⟩

/-- A three-operation batch whose middle operation fails. -/
def batchOneFailing : List SyncOperation := [opCreateWo1, opCreateNoTitle, opCreateWo5]

/-- A two-operation batch, one success and one failure, for the ledger claim. -/
def c4Run : SyncResponse :=
  sync_batch_operations emptyStore "client-1" [opCreateWo1, opCreateNoTitle] none

/-- DELETE of a record id no table contains. -/
def opDeleteMissing : SyncOperation :=
  ⟨"opd", OpKind.DELETE, "work_orders", "missing", none, 0, 0⟩

/-- A work order last written by the server at time 10. -/
def staleRec : Rec := ⟨"wo-1", some 10, [("title", "old")]⟩

/-- A server holding only `staleRec`. -/
def conflictStore : Store := ⟨[staleRec], [], [], [], [], [], 0, 1000⟩

/-- An UPDATE of `wo-1` whose client last saw the record at time 5 < 10. -/
def opUpdateStale : SyncOperation :=
  ⟨"op3", OpKind.UPDATE, "work_orders", "wo-1", some [("title", "new")], 5, 0⟩

/-- A server whose only mutations since time 0 are a cost entry and an asset,
both stamped at time 5. -/
def deltaStore : Store :=
  ⟨[], [], [], [⟨"ce-1", some 5, []⟩], [⟨"a-1", some 5, []⟩], [], 0, 1000⟩

/-- An asset row whose `updated_at` column is null. -/
def assetNoStampRec : Rec := ⟨"a-1", none, [("name", "Pump")]⟩

/-- A server holding only `assetNoStampRec`. -/
def assetNoStampStore : Store := ⟨[], [], [], [], [assetNoStampRec], [], 0, 777⟩

/-- An UPDATE of that asset with client timestamp 0. -/
def opUpdateAsset : SyncOperation :=
  ⟨"op9", OpKind.UPDATE, "assets", "a-1", some [("name", "Pump2")], 0, 0⟩

/-- A work order whose `updated_at` column is null. -/
def noStampRec : Rec := ⟨"wo-9", none, [("title", "t")]⟩

/-- A server holding only `noStampRec`. -/
def noStampStore : Store := ⟨[noStampRec], [], [], [], [], [], 0, 777⟩

/-- An UPDATE of that work order with client timestamp 0. -/
def opUpdateWo9 : SyncOperation :=
  ⟨"w1", OpKind.UPDATE, "work_orders", "wo-9", some [("title", "t2")], 0, 0⟩

/-! ### Theorems -/

/-- C1. The engine does not implement idempotent replay: resubmitting the
already-applied operation `op1` (CREATE of `wo-1`) in a second batch reports
success again, but re-applies the payload — the store then holds two work-order
rows, a duplicate — and at no point does any `sync_status` ledger row carry the
operation id `op1`. This refutes the claim that a second submission returns
success without re-mutating the record. -/
theorem replay_of_applied_create_duplicates_record :
    c1FirstRun.processed_operations = ["op1"] ∧
    c1FirstRun.store.work_orders.length = 1 ∧
    c1SecondRun.processed_operations = ["op1"] ∧
    c1SecondRun.store.work_orders.length = 2 ∧
    c1SecondRun.store.sync_status.all (fun r => ¬ (r.lid == "op1")) = true := by
  decide

/-- C2. A CREATE whose `record_id` matches no existing record inserts a row
whose identifier is a fresh server-generated uuid, not the client-supplied
`record_id`: after processing `op1` (CREATE of `wo-1`) the only work-order row
has id `uuid-0`, and a lookup by `wo-1` finds nothing. -/
theorem create_ignores_client_supplied_record_id :
    (SyncManager.process_client_operations emptyStore [opCreateWo1]).processed
      = ["op1"] ∧
    (SyncManager.process_client_operations emptyStore [opCreateWo1]).store.work_orders.map
      Rec.rid = ["uuid-0"] ∧
    WorkOrderRepository.get_by_id
      (SyncManager.process_client_operations emptyStore [opCreateWo1]).store
      "work_orders" "wo-1" = none := by
  decide

/-- C4. Processing a batch of two operations, one succeeding and one failing,
writes exactly one `sync_status` row: the failed operation produces no ledger
write at all, and the one row written is keyed by a fresh uuid with placeholder
value batch for `table_name`, never by an operation id. This refutes the claim
of one upsert keyed by the operation id for every processed operation. -/
theorem ledger_written_only_for_processed_and_never_keyed_by_op_id :
    c4Run.processed_operations = ["op1"] ∧
    c4Run.failed_operations = [("op2", "KeyError: title")] ∧
    c4Run.store.sync_status.map LedgerRow.lid = ["uuid-1"] ∧
    c4Run.store.sync_status.map LedgerRow.table_name = ["batch"] := by
  decide

/-- C5 counterexample. A DELETE of a `record_id` that exists nowhere is
reported as a failure, not a success: the operation id lands in the `failed`
list and `processed` stays empty, because `WorkOrderRepository.delete` reports
`True` only when a row was actually deleted. -/
theorem delete_of_missing_record_reported_as_failure :
    (SyncManager.process_client_operations emptyStore [opDeleteMissing]).processed
      = [] ∧
    (SyncManager.process_client_operations emptyStore [opDeleteMissing]).failed
      = [("opd", SyncManager.noResultMsg)] := by
  decide

/-- C6 counterexample. An UPDATE rejected by conflict detection (`wo-1` was
written by the server at time 10, the client saw it at time 5) lands in the
`failed` list with the generic message of the batch loop, which is not the
machine-readable reason `CONFLICT`. -/
theorem conflict_failure_carries_generic_reason_not_conflict :
    (SyncManager.process_client_operations conflictStore [opUpdateStale]).failed
      = [("op3", SyncManager.noResultMsg)] ∧
    SyncManager.noResultMsg ≠ "CONFLICT" := by
  decide

/-- C8 counterexample. With a cost entry and an asset both mutated at time
5 > 0, the server-changes query for watermark 0 returns nothing: assets and
cost entries are not among the tables the delta pull queries. -/
theorem delta_pull_misses_assets_and_cost_entries :
    deltaStore.cost_entries = [⟨"ce-1", some 5, []⟩] ∧
    deltaStore.assets = [⟨"a-1", some 5, []⟩] ∧
    SyncManager.get_server_changes deltaStore (some 0) = [] := by
  decide

/-- C10 counterexample. For an existing `assets` record with no `updated_at`
value, conflict detection indeed reports no conflict — yet the payload is not
applied: `AssetRepository` has no `update` method, so the operation fails and
the store is unchanged. -/
theorem asset_update_without_timestamp_not_applied :
    SyncManager.detect_conflicts assetNoStampRec opUpdateAsset = false ∧
    (SyncManager.process_client_operations assetNoStampStore [opUpdateAsset]).failed.map
      Prod.fst = ["op9"] ∧
    (SyncManager.process_client_operations assetNoStampStore [opUpdateAsset]).store
      = assetNoStampStore := by
  decide


/-- Every table with a `get_by_id` method is a registered table. -/
theorem knownTable_of_hasGetById {t : String} (h : hasGetById t = true) :
    knownTable t = true := by
  simp only [hasGetById, Bool.or_eq_true, beq_iff_eq] at h
  simp only [knownTable, Bool.or_eq_true, beq_iff_eq]
  tauto

/-- Helper: a detected conflict on a found record makes the single-operation
processor return a falsy result with the store untouched. -/
theorem single_op_conflict_rejected (s : Store) (op : SyncOperation) (cur : Rec)
    (hop : op.operation = OpKind.UPDATE)
    (hget : hasGetById op.table_name = true)
    (hfound : WorkOrderRepository.get_by_id s op.table_name op.record_id = some cur)
    (hc : SyncManager.detect_conflicts cur op = true) :
    SyncManager.process_single_operation s op = Except.ok (false, s) := by
  have hk : knownTable op.table_name = true := knownTable_of_hasGetById hget
  unfold SyncManager.process_single_operation
  rw [hop]
  simp only [hk, if_true]
  unfold SyncManager.handle_update
  simp only [hget, if_true, hfound, hc]

/-- C3. For an UPDATE whose target record exists on the server, a conflict is
detected exactly when the record carries a server `updated_at` strictly later
than the operation client timestamp; and a detected conflict makes the
operation fail atomically — the handler returns a falsy result with the store
exactly as it was, so no part of the payload is applied. -/
theorem update_conflict_iff_server_newer (s : Store) (op : SyncOperation)
    (cur : Rec)
    (hop : op.operation = OpKind.UPDATE)
    (hget : hasGetById op.table_name = true)
    (hfound : WorkOrderRepository.get_by_id s op.table_name op.record_id = some cur) :
    (SyncManager.detect_conflicts cur op = true ↔
      ∃ u, cur.updated_at = some u ∧ op.client_timestamp < u) ∧
    (SyncManager.detect_conflicts cur op = true →
      SyncManager.process_single_operation s op = Except.ok (false, s)) := by
  constructor
  · unfold SyncManager.detect_conflicts
    cases h : cur.updated_at with
    | none => simp
    | some u => simp
  · exact single_op_conflict_rejected s op cur hop hget hfound

/-- Witness for C3 at the concrete conflict scenario: `wo-1` carries server
time 10, the client timestamp is 5. -/
theorem update_conflict_iff_server_newer_witness :
    (WorkOrderRepository.get_by_id conflictStore "work_orders" "wo-1"
        = some staleRec ∧
      opUpdateStale.operation = OpKind.UPDATE ∧
      hasGetById "work_orders" = true) ∧
    (SyncManager.detect_conflicts staleRec opUpdateStale = true ↔
      ∃ u, staleRec.updated_at = some u ∧ opUpdateStale.client_timestamp < u) ∧
    (SyncManager.detect_conflicts staleRec opUpdateStale = true →
      SyncManager.process_single_operation conflictStore opUpdateStale
        = Except.ok (false, conflictStore)) :=
  ⟨⟨by decide, rfl, by decide⟩,
    update_conflict_iff_server_newer conflictStore opUpdateStale staleRec rfl
      (by decide) (by decide)⟩

/-- C5 amended. A DELETE whose `record_id` exists nowhere in the target table
is reported as a failure: for work orders the repository delete reports `True`
only when a row was deleted, and every other registered table has no delete
method at all, so the handler result is falsy and the operation id lands in the
`failed` list with the generic error. -/
theorem delete_of_missing_record_fails (s : Store) (op : SyncOperation)
    (hop : op.operation = OpKind.DELETE)
    (hk : knownTable op.table_name = true)
    (habs : ∀ r ∈ s.table op.table_name, ¬ r.rid = op.record_id) :
    (SyncManager.process_client_operations s [op]).processed = [] ∧
    (SyncManager.process_client_operations s [op]).failed
      = [(op.id, SyncManager.noResultMsg)] := by
  have hsingle : ∃ s1, SyncManager.process_single_operation s op
      = Except.ok (false, s1) := by
    unfold SyncManager.process_single_operation
    rw [hop]
    simp only [hk, if_true]
    unfold SyncManager.handle_delete
    by_cases hdel : hasDelete op.table_name = true
    · have htw : op.table_name = "work_orders" := by
        simpa [hasDelete, beq_iff_eq] using hdel
      have habs2 : ∀ r ∈ s.work_orders, ¬ r.rid = op.record_id := by
        intro r hr
        refine habs r ?_
        rw [htw]
        simpa [Store.table] using hr
      have hany : s.work_orders.any (fun r => r.rid == op.record_id) = false := by
        rw [Bool.eq_false_iff]
        intro hx
        rcases List.any_eq_true.mp hx with ⟨r, hr, hp⟩
        exact habs2 r hr (by simpa [beq_iff_eq] using hp)
      simp only [hdel, if_true, WorkOrderRepository.delete, hany]
      exact ⟨_, rfl⟩
    · rw [Bool.not_eq_true] at hdel
      simp only [hdel, Bool.false_eq_true, if_false]
      exact ⟨s, rfl⟩
  rcases hsingle with ⟨s1, hs1⟩
  simp [SyncManager.process_client_operations, hs1]

/-- Witness for the amended C5 at the concrete input: DELETE of `missing` on an
empty server fails. -/
theorem delete_of_missing_record_fails_witness :
    (opDeleteMissing.operation = OpKind.DELETE ∧
      knownTable "work_orders" = true ∧
      ∀ r ∈ emptyStore.table "work_orders", ¬ r.rid = "missing") ∧
    (SyncManager.process_client_operations emptyStore [opDeleteMissing]).processed
        = [] ∧
    (SyncManager.process_client_operations emptyStore [opDeleteMissing]).failed
      = [("opd", SyncManager.noResultMsg)] :=
  ⟨⟨rfl, by decide, by decide⟩,
    delete_of_missing_record_fails emptyStore opDeleteMissing rfl (by decide)
      (by decide)⟩

/-- C6 amended. An UPDATE rejected by conflict detection lands in the `failed`
list carrying its operation id, but with the generic batch-loop message rather
than a machine-readable `CONFLICT` reason; the store is left untouched. -/
theorem conflict_rejection_lands_in_failed_with_generic_reason
    (s : Store) (op : SyncOperation) (cur : Rec)
    (hop : op.operation = OpKind.UPDATE)
    (hget : hasGetById op.table_name = true)
    (hfound : WorkOrderRepository.get_by_id s op.table_name op.record_id = some cur)
    (hc : SyncManager.detect_conflicts cur op = true) :
    SyncManager.process_client_operations s [op]
      = ⟨[], [(op.id, SyncManager.noResultMsg)], s⟩ := by
  have h1 := single_op_conflict_rejected s op cur hop hget hfound hc
  simp [SyncManager.process_client_operations, h1]

/-- Witness for the amended C6 at the concrete conflict scenario. -/
theorem conflict_rejection_generic_reason_witness :
    (opUpdateStale.operation = OpKind.UPDATE ∧
      hasGetById "work_orders" = true ∧
      WorkOrderRepository.get_by_id conflictStore "work_orders" "wo-1"
        = some staleRec ∧
      SyncManager.detect_conflicts staleRec opUpdateStale = true) ∧
    SyncManager.process_client_operations conflictStore [opUpdateStale]
      = ⟨[], [("op3", SyncManager.noResultMsg)], conflictStore⟩ :=
  ⟨⟨rfl, by decide, by decide, by decide⟩,
    conflict_rejection_lands_in_failed_with_generic_reason conflictStore
      opUpdateStale staleRec rfl (by decide) (by decide) (by decide)⟩

/-- Helper: every operation of a batch contributes its id to exactly one of the
two result lists, in submission order — their ids, taken together, are a
permutation of the ids of the batch. -/
theorem processed_append_failed_perm (s : Store) (ops : List SyncOperation) :
    ((SyncManager.process_client_operations s ops).processed ++
        (SyncManager.process_client_operations s ops).failed.map Prod.fst).Perm
      (ops.map SyncOperation.id) := by
  induction ops generalizing s with
  | nil => simp [SyncManager.process_client_operations]
  | cons op rest ih =>
    cases hres : SyncManager.process_single_operation s op with
    | ok p =>
      rcases p with ⟨b, s1⟩
      cases b
      · simp only [SyncManager.process_client_operations, hres, List.map_cons]
        exact List.perm_middle.trans ((ih s1).cons op.id)
      · simp only [SyncManager.process_client_operations, hres, List.map_cons,
          List.cons_append]
        exact (ih s1).cons op.id
    | error e =>
      simp only [SyncManager.process_client_operations, hres, List.map_cons]
      exact List.perm_middle.trans ((ih s).cons op.id)

/-- C7. Batch processing is independent across operations: with pairwise
distinct operation ids, if exactly one operation of the batch fails then the
other N-1 are all in `processed` — nothing after the failing operation is
skipped — and every operation id of the batch appears in exactly one of the two
result lists. -/
theorem batch_partial_failure_independence (s : Store) (ops : List SyncOperation)
    (hnd : (ops.map SyncOperation.id).Nodup)
    (h1 : (SyncManager.process_client_operations s ops).failed.length = 1) :
    (SyncManager.process_client_operations s ops).processed.length + 1
      = ops.length ∧
    ∀ op ∈ ops,
      (op.id ∈ (SyncManager.process_client_operations s ops).processed ∧
        op.id ∉ (SyncManager.process_client_operations s ops).failed.map Prod.fst) ∨
      (op.id ∉ (SyncManager.process_client_operations s ops).processed ∧
        op.id ∈ (SyncManager.process_client_operations s ops).failed.map Prod.fst) := by
  have hp := processed_append_failed_perm s ops
  have hlen := hp.length_eq
  rw [List.length_append, List.length_map, List.length_map, h1] at hlen
  refine ⟨hlen, ?_⟩
  intro op hop
  have hcount1 : (ops.map SyncOperation.id).count op.id = 1 :=
    List.count_eq_one_of_mem hnd (List.mem_map_of_mem SyncOperation.id hop)
  have hcount2 := hp.count_eq op.id
  rw [List.count_append, hcount1] at hcount2
  rcases Nat.eq_zero_or_pos
      ((SyncManager.process_client_operations s ops).processed.count op.id) with
    hz | hpos
  · right
    constructor
    · exact List.count_eq_zero.mp hz
    · refine List.count_pos_iff.mp ?_
      omega
  · left
    constructor
    · exact List.count_pos_iff.mp hpos
    · refine List.count_eq_zero.mp ?_
      omega

/-- Witness for C7: in the three-operation batch whose middle operation lacks
the mandatory `title`, exactly that one fails, the two others are processed,
and each id is in exactly one list. -/
theorem batch_partial_failure_independence_witness :
    ((batchOneFailing.map SyncOperation.id).Nodup ∧
      (SyncManager.process_client_operations emptyStore batchOneFailing).failed.length
        = 1) ∧
    (SyncManager.process_client_operations emptyStore batchOneFailing).processed.length
        + 1 = batchOneFailing.length ∧
    ∀ op ∈ batchOneFailing,
      (op.id ∈ (SyncManager.process_client_operations emptyStore batchOneFailing).processed ∧
        op.id ∉ (SyncManager.process_client_operations emptyStore batchOneFailing).failed.map
          Prod.fst) ∨
      (op.id ∉ (SyncManager.process_client_operations emptyStore batchOneFailing).processed ∧
        op.id ∈ (SyncManager.process_client_operations emptyStore batchOneFailing).failed.map
          Prod.fst) :=
  ⟨⟨by decide, by decide⟩,
    batch_partial_failure_independence emptyStore batchOneFailing (by decide)
      (by decide)⟩

/-- Helper: a single-operation batch whose operation cannot return a truthy
result has an empty `processed` list and exactly the operation id in `failed`. -/
theorem batch_single_failure_shape (s : Store) (op : SyncOperation)
    (h : ∀ s1, SyncManager.process_single_operation s op ≠ Except.ok (true, s1)) :
    (SyncManager.process_client_operations s [op]).processed = [] ∧
    (SyncManager.process_client_operations s [op]).failed.map Prod.fst
      = [op.id] := by
  cases hres : SyncManager.process_single_operation s op with
  | ok p =>
    rcases p with ⟨b, s1⟩
    cases b
    · simp [SyncManager.process_client_operations, hres]
    · exact absurd hres (h s1)
  | error e => simp [SyncManager.process_client_operations, hres]

/-- C9. UPDATE and DELETE operations on the registered tables `assets` and
`cost_entries` always fail, whatever the store contents, payload and
timestamps: their repositories expose no `update` or `delete` method (and no
`create` to degrade a missing-record UPDATE into), so the handlers either fall
through to a falsy result or raise, and the operation id lands in the `failed`
list. -/
theorem update_delete_on_assets_cost_entries_always_fail
    (s : Store) (op : SyncOperation)
    (ht : op.table_name = "assets" ∨ op.table_name = "cost_entries")
    (hop : op.operation = OpKind.UPDATE ∨ op.operation = OpKind.DELETE) :
    (SyncManager.process_client_operations s [op]).processed = [] ∧
    (SyncManager.process_client_operations s [op]).failed.map Prod.fst
      = [op.id] := by
  apply batch_single_failure_shape
  intro s1 hcontra
  rcases hop with hopU | hopD
  · rcases ht with htA | htC
    · -- UPDATE on assets
      unfold SyncManager.process_single_operation at hcontra
      rw [hopU] at hcontra
      simp only [htA] at hcontra
      rw [if_pos (by decide : knownTable "assets" = true)] at hcontra
      unfold SyncManager.handle_update at hcontra
      simp only [htA] at hcontra
      rw [if_pos (by decide : hasGetById "assets" = true)] at hcontra
      cases hfind : WorkOrderRepository.get_by_id s "assets" op.record_id with
      | none =>
        rw [hfind] at hcontra
        unfold SyncManager.handle_create at hcontra
        simp only [htA] at hcontra
        rw [if_pos (by decide : hasGetById "assets" = true), hfind] at hcontra
        cases hd : op.data with
        | none => rw [hd] at hcontra; exact absurd hcontra (by simp)
        | some d =>
          rw [hd] at hcontra
          simp only [if_neg (by decide : ¬ hasCreate "assets" = true)] at hcontra
          exact absurd hcontra (by simp)
      | some cur =>
        rw [hfind] at hcontra
        cases hc : SyncManager.detect_conflicts cur op with
        | true => simp [hc] at hcontra
        | false =>
          simp only [hc, Bool.false_eq_true, if_false] at hcontra
          unfold SyncManager.applyUpdate at hcontra
          simp only [htA] at hcontra
          rw [if_neg (by decide : ¬ hasUpdate "assets" = true)] at hcontra
          simp at hcontra
    · -- UPDATE on cost_entries
      unfold SyncManager.process_single_operation at hcontra
      rw [hopU] at hcontra
      simp only [htC] at hcontra
      rw [if_pos (by decide : knownTable "cost_entries" = true)] at hcontra
      unfold SyncManager.handle_update at hcontra
      simp only [htC] at hcontra
      rw [if_neg (by decide : ¬ hasGetById "cost_entries" = true)] at hcontra
      unfold SyncManager.applyUpdate at hcontra
      simp only [htC] at hcontra
      rw [if_neg (by decide : ¬ hasUpdate "cost_entries" = true)] at hcontra
      simp at hcontra
  · -- DELETE on either table
    unfold SyncManager.process_single_operation at hcontra
    rw [hopD] at hcontra
    have hdel : hasDelete op.table_name = false := by
      rcases ht with h | h <;> rw [h] <;> decide
    have hkn : knownTable op.table_name = true := by
      rcases ht with h | h <;> rw [h] <;> decide
    rw [if_pos hkn] at hcontra
    unfold SyncManager.handle_delete at hcontra
    rw [if_neg (by simp [hdel])] at hcontra
    simp at hcontra

/-- Witness for C9: UPDATE of an existing asset, UPDATE of a missing asset,
UPDATE of an existing cost entry and DELETE of an existing cost entry all land
in the `failed` list. -/
theorem update_delete_on_assets_cost_entries_witness :
    (("assets" = "assets" ∨ ("assets" : String) = "cost_entries") ∧
      (OpKind.UPDATE = OpKind.UPDATE ∨ OpKind.UPDATE = OpKind.DELETE)) ∧
    (SyncManager.process_client_operations deltaStore
        [⟨"a1", OpKind.UPDATE, "assets", "a-1", some [("name", "x")], 0, 0⟩]).processed
      = [] ∧
    (SyncManager.process_client_operations deltaStore
        [⟨"a1", OpKind.UPDATE, "assets", "a-1", some [("name", "x")], 0, 0⟩]).failed.map
      Prod.fst = ["a1"] :=
  ⟨⟨Or.inl rfl, Or.inl rfl⟩,
    update_delete_on_assets_cost_entries_always_fail deltaStore
      ⟨"a1", OpKind.UPDATE, "assets", "a-1", some [("name", "x")], 0, 0⟩
      (Or.inl rfl) (Or.inl rfl)⟩

/-- Helper: replacing, by id, every matching row of a table with a row that
still carries that id makes a lookup by the id return the replacement, provided
some row matched before. -/
theorem find?_map_replace (l : List Rec) (rid : String) (nr : Rec)
    (hnr : (nr.rid == rid) = true) :
    ∀ old : Rec, l.find? (fun r => r.rid == rid) = some old →
      (l.map (fun r => if r.rid == rid then nr else r)).find?
        (fun r => r.rid == rid) = some nr := by
  induction l with
  | nil => intro old h; simp at h
  | cons a l ih =>
    intro old h
    cases ha : (a.rid == rid) with
    | true =>
      simp only [List.map_cons, ha, eq_self_iff_true, if_true, List.find?_cons,
        hnr]
    | false =>
      simp only [List.find?_cons, ha] at h
      simp only [List.map_cons, ha, Bool.false_eq_true, if_false,
        List.find?_cons]
      exact ih old h

/-- C10 amended. For an UPDATE on an existing record whose server snapshot has
no `updated_at` value, conflict detection reports no conflict whatever the
client timestamp; and for the one table whose repository supports `update`
(work orders), a payload with at least one non-immutable field is then applied:
the operation succeeds and the record afterwards carries the merged fields and
a fresh server `updated_at`. (For `assets`, the other table where such a
record is reachable, the operation still fails for want of an `update` method —
see the counterexample.) -/
theorem no_timestamp_means_no_conflict_and_update_applies
    (s : Store) (op : SyncOperation) (cur : Rec) (d : List (String × String))
    (hop : op.operation = OpKind.UPDATE)
    (ht : op.table_name = "work_orders")
    (hfound : WorkOrderRepository.get_by_id s "work_orders" op.record_id = some cur)
    (hnone : cur.updated_at = none)
    (hd : op.data = some d)
    (hne : mutableClauses d ≠ []) :
    SyncManager.detect_conflicts cur op = false ∧
    ∃ s1, SyncManager.process_single_operation s op = Except.ok (true, s1) ∧
      WorkOrderRepository.get_by_id s1 "work_orders" op.record_id =
        some { cur with
               fields := applyFields cur.fields (mutableClauses d)
               updated_at := some s.now } := by
  have hwo : s.table "work_orders" = s.work_orders := by simp [Store.table]
  have hfind : s.work_orders.find? (fun r => r.rid == op.record_id) = some cur := by
    rw [← hwo]; exact hfound
  have hcur : (cur.rid == op.record_id) = true := by
    simpa using List.find?_some hfind
  have hnoconf : SyncManager.detect_conflicts cur op = false := by
    unfold SyncManager.detect_conflicts
    rw [hnone]
  refine ⟨hnoconf, ?_⟩
  have hupd : WorkOrderRepository.update s op.record_id d =
      some ({ cur with
              fields := applyFields cur.fields (mutableClauses d)
              updated_at := some s.now },
            { s with
              work_orders := s.work_orders.map
                (fun r => if r.rid == op.record_id then
                  { cur with
                    fields := applyFields cur.fields (mutableClauses d)
                    updated_at := some s.now } else r)
              now := s.now + 1 }) := by
    unfold WorkOrderRepository.update
    have hne2 : (mutableClauses d).isEmpty = false := by
      cases hcl : mutableClauses d with
      | nil => exact absurd hcl hne
      | cons a l => simp [List.isEmpty]
    simp only [mutableClauses] at hne2
    simp only [hne2, Bool.false_eq_true, if_false, hfind, mutableClauses]
  refine ⟨{ s with
            work_orders := s.work_orders.map
              (fun r => if r.rid == op.record_id then
                { cur with
                  fields := applyFields cur.fields (mutableClauses d)
                  updated_at := some s.now } else r)
            now := s.now + 1 }, ?_, ?_⟩
  · unfold SyncManager.process_single_operation
    rw [hop]
    simp only [ht]
    rw [if_pos (by decide : knownTable "work_orders" = true)]
    unfold SyncManager.handle_update
    simp only [ht]
    rw [if_pos (by decide : hasGetById "work_orders" = true), hfound]
    simp only [hnoconf, Bool.false_eq_true, if_false]
    unfold SyncManager.applyUpdate
    simp only [ht]
    rw [if_pos (by decide : hasUpdate "work_orders" = true)]
    simp only [hd, hupd]
  · unfold WorkOrderRepository.get_by_id
    rw [show ∀ st : Store, st.table "work_orders" = st.work_orders from
      fun st => by simp [Store.table]]
    exact find?_map_replace s.work_orders op.record_id _ hcur cur hfind

/-- Witness for the amended C10 at the concrete input: the work order `wo-9`
carries no `updated_at`, and updating its title succeeds and stamps it. -/
theorem no_timestamp_update_applies_witness :
    (opUpdateWo9.operation = OpKind.UPDATE ∧
      WorkOrderRepository.get_by_id noStampStore "work_orders" "wo-9"
        = some noStampRec ∧
      noStampRec.updated_at = none ∧
      mutableClauses [("title", "t2")] ≠ []) ∧
    SyncManager.detect_conflicts noStampRec opUpdateWo9 = false ∧
    ∃ s1, SyncManager.process_single_operation noStampStore opUpdateWo9
        = Except.ok (true, s1) ∧
      WorkOrderRepository.get_by_id s1 "work_orders" "wo-9" =
        some { noStampRec with
               fields := applyFields noStampRec.fields
                 (mutableClauses [("title", "t2")])
               updated_at := some noStampStore.now } :=
  ⟨⟨rfl, by decide, rfl, by decide⟩,
    no_timestamp_means_no_conflict_and_update_applies noStampStore opUpdateWo9
      noStampRec [("title", "t2")] rfl rfl (by decide) rfl rfl (by decide)⟩

/-- Helper: every element of a `changesFor` query carries the query table tag,
comes from the queried rows, and has `updated_at` strictly after the watermark. -/
theorem mem_changesFor {tname : String} {recs : List Rec} {t cap : Nat}
    {c : String × Rec} (h : c ∈ SyncManager.changesFor tname recs t cap) :
    c.1 = tname ∧ c.2 ∈ recs ∧ ∃ u, c.2.updated_at = some u ∧ t < u := by
  rcases List.mem_map.mp h with ⟨r, hr, rfl⟩
  have hr2 : r ∈ (recs.filter (SyncManager.updatedAfter t)).insertionSort
      SyncManager.recGE := List.mem_of_mem_take hr
  have hr3 : r ∈ recs.filter (SyncManager.updatedAfter t) := by
    rw [List.mem_insertionSort] at hr2
    exact hr2
  have hm := List.mem_filter.mp hr3
  refine ⟨rfl, hm.1, ?_⟩
  have hp := hm.2
  unfold SyncManager.updatedAfter at hp
  cases hu : r.updated_at with
  | none =>
    simp only [hu] at hp
    exact absurd hp (by decide)
  | some u =>
    simp only [hu] at hp
    exact ⟨u, rfl, by simpa using hp⟩

/-- Helper: a `changesFor` query returns at most `cap` rows. -/
theorem changesFor_length_le (tname : String) (recs : List Rec) (t cap : Nat) :
    (SyncManager.changesFor tname recs t cap).length ≤ cap := by
  unfold SyncManager.changesFor
  rw [List.length_map, List.length_take]
  exact Nat.min_le_left _ _

/-- Helper: when at most `cap` rows qualify, every qualifying row is returned. -/
theorem changesFor_complete {recs : List Rec} {t cap : Nat}
    (hlen : (recs.filter (SyncManager.updatedAfter t)).length ≤ cap)
    {r : Rec} (hr : r ∈ recs) (hu : SyncManager.updatedAfter t r = true)
    (tname : String) :
    (tname, r) ∈ SyncManager.changesFor tname recs t cap := by
  unfold SyncManager.changesFor
  apply List.mem_map_of_mem
  rw [List.take_of_length_le]
  · rw [List.mem_insertionSort]
    exact List.mem_filter.mpr ⟨hr, hu⟩
  · rw [(List.perm_insertionSort SyncManager.recGE _).length_eq]
    exact hlen

/-- Helper: a `changesFor` query is sorted newest-first on `updated_at`. -/
theorem changesFor_sorted (tname : String) (recs : List Rec) (t cap : Nat) :
    (SyncManager.changesFor tname recs t cap).Pairwise
      (fun a b => SyncManager.updatedKey b.2 ≤ SyncManager.updatedKey a.2) := by
  unfold SyncManager.changesFor
  rw [List.pairwise_map]
  exact List.Pairwise.sublist (List.take_sublist _ _)
    (List.sorted_insertionSort SyncManager.recGE _)

/-- Helper: filtering a `changesFor` query on its own table tag keeps it all. -/
theorem filter_fst_changesFor_self (tname : String) (recs : List Rec) (t cap : Nat) :
    (SyncManager.changesFor tname recs t cap).filter (fun c => c.1 == tname)
      = SyncManager.changesFor tname recs t cap := by
  apply List.filter_eq_self.mpr
  intro c hc
  have h1 := (mem_changesFor hc).1
  simp [h1]

/-- Helper: filtering a `changesFor` query on a different table tag empties it. -/
theorem filter_fst_changesFor_ne {tname tn : String} (h : tn ≠ tname)
    (recs : List Rec) (t cap : Nat) :
    (SyncManager.changesFor tname recs t cap).filter (fun c => c.1 == tn) = [] := by
  apply List.filter_eq_nil_iff.mpr
  intro c hc
  have h1 := (mem_changesFor hc).1
  simp only [h1, beq_iff_eq]
  exact fun hh => h hh.symm

/-- Helper: the delta pull for an explicit watermark is the concatenation of
the three per-table queries. -/
theorem get_server_changes_split (s : Store) (t : Nat) :
    SyncManager.get_server_changes s (some t)
      = SyncManager.changesFor "work_orders" s.work_orders t 100 ++
          SyncManager.changesFor "pm_tasks" s.pm_tasks t 50 ++
          SyncManager.changesFor "pm_schedule" s.pm_schedule t 100 := rfl

/-- C8 amended. For every non-null watermark `t`, the server-changes query
covers exactly three entity tables — work orders (page size 100), PM tasks
(50) and PM schedule (100); assets and cost entries never appear. Per covered
table: every returned record has `updated_at > t`, the returned segment is
ordered newest-first, its size is bounded by the page size, and whenever at
most a page of records qualifies, every qualifying record is returned. -/
theorem delta_pull_covers_exactly_three_tables (s : Store) (t : Nat) :
    (∀ c ∈ SyncManager.get_server_changes s (some t),
      (c.1 = "work_orders" ∨ c.1 = "pm_tasks" ∨ c.1 = "pm_schedule") ∧
      ∃ u, c.2.updated_at = some u ∧ t < u) ∧
    ((SyncManager.get_server_changes s (some t)).filter
        (fun c => c.1 == "work_orders")).length ≤ 100 ∧
    ((SyncManager.get_server_changes s (some t)).filter
        (fun c => c.1 == "pm_tasks")).length ≤ 50 ∧
    ((SyncManager.get_server_changes s (some t)).filter
        (fun c => c.1 == "pm_schedule")).length ≤ 100 ∧
    (((SyncManager.get_server_changes s (some t)).filter
        (fun c => c.1 == "work_orders")).Pairwise
      (fun a b => SyncManager.updatedKey b.2 ≤ SyncManager.updatedKey a.2) ∧
      ((SyncManager.get_server_changes s (some t)).filter
          (fun c => c.1 == "pm_tasks")).Pairwise
        (fun a b => SyncManager.updatedKey b.2 ≤ SyncManager.updatedKey a.2) ∧
      ((SyncManager.get_server_changes s (some t)).filter
          (fun c => c.1 == "pm_schedule")).Pairwise
        (fun a b => SyncManager.updatedKey b.2 ≤ SyncManager.updatedKey a.2)) ∧
    ((s.work_orders.filter (SyncManager.updatedAfter t)).length ≤ 100 →
      ∀ r ∈ s.work_orders, SyncManager.updatedAfter t r = true →
        ("work_orders", r) ∈ SyncManager.get_server_changes s (some t)) ∧
    ((s.pm_tasks.filter (SyncManager.updatedAfter t)).length ≤ 50 →
      ∀ r ∈ s.pm_tasks, SyncManager.updatedAfter t r = true →
        ("pm_tasks", r) ∈ SyncManager.get_server_changes s (some t)) ∧
    ((s.pm_schedule.filter (SyncManager.updatedAfter t)).length ≤ 100 →
      ∀ r ∈ s.pm_schedule, SyncManager.updatedAfter t r = true →
        ("pm_schedule", r) ∈ SyncManager.get_server_changes s (some t)) := by
  have hsplit := get_server_changes_split s t
  have hwoF : (SyncManager.get_server_changes s (some t)).filter
      (fun c => c.1 == "work_orders")
      = SyncManager.changesFor "work_orders" s.work_orders t 100 := by
    rw [hsplit, List.filter_append, List.filter_append,
      filter_fst_changesFor_self,
      filter_fst_changesFor_ne (by decide : ("work_orders" : String) ≠ "pm_tasks"),
      filter_fst_changesFor_ne (by decide : ("work_orders" : String) ≠ "pm_schedule"),
      List.append_nil, List.append_nil]
  have hptF : (SyncManager.get_server_changes s (some t)).filter
      (fun c => c.1 == "pm_tasks")
      = SyncManager.changesFor "pm_tasks" s.pm_tasks t 50 := by
    rw [hsplit, List.filter_append, List.filter_append,
      filter_fst_changesFor_self,
      filter_fst_changesFor_ne (by decide : ("pm_tasks" : String) ≠ "work_orders"),
      filter_fst_changesFor_ne (by decide : ("pm_tasks" : String) ≠ "pm_schedule"),
      List.append_nil, List.nil_append]
  have hpsF : (SyncManager.get_server_changes s (some t)).filter
      (fun c => c.1 == "pm_schedule")
      = SyncManager.changesFor "pm_schedule" s.pm_schedule t 100 := by
    rw [hsplit, List.filter_append, List.filter_append,
      filter_fst_changesFor_self,
      filter_fst_changesFor_ne (by decide : ("pm_schedule" : String) ≠ "work_orders"),
      filter_fst_changesFor_ne (by decide : ("pm_schedule" : String) ≠ "pm_tasks"),
      List.nil_append, List.nil_append]
  refine ⟨?_, ?_, ?_, ?_, ⟨?_, ?_, ?_⟩, ?_, ?_, ?_⟩
  · intro c hc
    rw [hsplit] at hc
    rcases List.mem_append.mp hc with hc2 | hcC
    · rcases List.mem_append.mp hc2 with hcA | hcB
      · have h1 := mem_changesFor hcA
        exact ⟨Or.inl h1.1, h1.2.2⟩
      · have h1 := mem_changesFor hcB
        exact ⟨Or.inr (Or.inl h1.1), h1.2.2⟩
    · have h1 := mem_changesFor hcC
      exact ⟨Or.inr (Or.inr h1.1), h1.2.2⟩
  · rw [hwoF]; exact changesFor_length_le _ _ _ _
  · rw [hptF]; exact changesFor_length_le _ _ _ _
  · rw [hpsF]; exact changesFor_length_le _ _ _ _
  · rw [hwoF]; exact changesFor_sorted _ _ _ _
  · rw [hptF]; exact changesFor_sorted _ _ _ _
  · rw [hpsF]; exact changesFor_sorted _ _ _ _
  · intro hlen r hr hu
    rw [hsplit]
    exact List.mem_append_left _
      (List.mem_append_left _ (changesFor_complete hlen hr hu _))
  · intro hlen r hr hu
    rw [hsplit]
    exact List.mem_append_left _
      (List.mem_append_right _ (changesFor_complete hlen hr hu _))
  · intro hlen r hr hu
    rw [hsplit]
    exact List.mem_append_right _ (changesFor_complete hlen hr hu _)

/-- Witness for the amended C8 at the `deltaStore` scenario with watermark 0:
the store qualifies everywhere, the changes list is empty — consistent with
each table segment being bounded, sorted, and complete for the three covered
tables (which hold no rows here). -/
theorem delta_pull_covers_exactly_three_tables_witness :
    (∀ c ∈ SyncManager.get_server_changes deltaStore (some 0),
      (c.1 = "work_orders" ∨ c.1 = "pm_tasks" ∨ c.1 = "pm_schedule") ∧
      ∃ u, c.2.updated_at = some u ∧ 0 < u) ∧
    ((SyncManager.get_server_changes deltaStore (some 0)).filter
        (fun c => c.1 == "work_orders")).length ≤ 100 ∧
    ((SyncManager.get_server_changes deltaStore (some 0)).filter
        (fun c => c.1 == "pm_tasks")).length ≤ 50 ∧
    ((SyncManager.get_server_changes deltaStore (some 0)).filter
        (fun c => c.1 == "pm_schedule")).length ≤ 100 ∧
    (((SyncManager.get_server_changes deltaStore (some 0)).filter
        (fun c => c.1 == "work_orders")).Pairwise
      (fun a b => SyncManager.updatedKey b.2 ≤ SyncManager.updatedKey a.2) ∧
      ((SyncManager.get_server_changes deltaStore (some 0)).filter
          (fun c => c.1 == "pm_tasks")).Pairwise
        (fun a b => SyncManager.updatedKey b.2 ≤ SyncManager.updatedKey a.2) ∧
      ((SyncManager.get_server_changes deltaStore (some 0)).filter
          (fun c => c.1 == "pm_schedule")).Pairwise
        (fun a b => SyncManager.updatedKey b.2 ≤ SyncManager.updatedKey a.2)) ∧
    ((deltaStore.work_orders.filter (SyncManager.updatedAfter 0)).length ≤ 100 →
      ∀ r ∈ deltaStore.work_orders, SyncManager.updatedAfter 0 r = true →
        ("work_orders", r) ∈ SyncManager.get_server_changes deltaStore (some 0)) ∧
    ((deltaStore.pm_tasks.filter (SyncManager.updatedAfter 0)).length ≤ 50 →
      ∀ r ∈ deltaStore.pm_tasks, SyncManager.updatedAfter 0 r = true →
        ("pm_tasks", r) ∈ SyncManager.get_server_changes deltaStore (some 0)) ∧
    ((deltaStore.pm_schedule.filter (SyncManager.updatedAfter 0)).length ≤ 100 →
      ∀ r ∈ deltaStore.pm_schedule, SyncManager.updatedAfter 0 r = true →
        ("pm_schedule", r) ∈ SyncManager.get_server_changes deltaStore (some 0)) :=
  delta_pull_covers_exactly_three_tables deltaStore 0

end ChatterFix
